import Mathlib

/-!
Verification of the `icelandic_holidays` library.

The library classifies calendar dates as holidays, business days and bank
days.  Dates are the host `datetime` values: proleptic Gregorian
(year, month, day) triples with day arithmetic and ISO weekdays
(Monday = 1 .. Sunday = 7).  We embed that calendar with the standard
civil-from-days / days-from-civil constructions over `Nat`, and translate
each function of `icelandic_holidays.py` on top of it.  A Python
`ValueError` (raised by `get_easter_sunday` for years before 1583) is
modelled as `none`; every function that may propagate it returns
`Option Bool`.
-/

/-- A calendar date, as carried by the host `datetime` objects:
a (year, month, day) triple.  `datetime` equality on `.date()` values is
componentwise equality. -/
structure Date where
  year : Nat
  month : Nat
  day : Nat
deriving DecidableEq, Repr

/-- Gregorian leap-year rule of the host calendar. -/
def isLeapYear (y : Nat) : Bool :=
  y % 4 == 0 && (y % 100 != 0 || y % 400 == 0)

/-- Number of days of month `m` of year `y` in the host calendar. -/
def daysInMonth (y m : Nat) : Nat :=
  if m = 2 then (if isLeapYear y then 29 else 28)
  else if m = 4 ∨ m = 6 ∨ m = 9 ∨ m = 11 then 30
  else 31

/-- The (year, month, day) triples that the host `datetime` type can carry:
months 1..12, days within the month, years from 1 (datetime.MINYEAR). -/
def ValidDate (dt : Date) : Prop :=
  1 ≤ dt.year ∧ 1 ≤ dt.month ∧ dt.month ≤ 12 ∧
  1 ≤ dt.day ∧ dt.day ≤ daysInMonth dt.year dt.month

instance (dt : Date) : Decidable (ValidDate dt) := by
  unfold ValidDate; infer_instance

/-- Day number of a proleptic Gregorian date, counted from 0000-03-01
(the standard days-from-civil construction, shifted so all values for
years ≥ 1 are nonnegative). -/
def daysFromCivil (y m d : Nat) : Nat :=
  let yy := if m ≤ 2 then y - 1 else y
  let era := yy / 400
  let yoe := yy % 400
  let mp := if 2 < m then m - 3 else m + 9
  let doy := (153 * mp + 2) / 5 + d - 1
  let doe := yoe * 365 + yoe / 4 - yoe / 100 + doy
  era * 146097 + doe

/-- Inverse of `daysFromCivil`: the proleptic Gregorian date of a day
number (the standard civil-from-days construction). -/
def civilFromDays (z : Nat) : Date :=
  let era := z / 146097
  let doe := z % 146097
  let yoe := (doe - doe / 1460 + doe / 36524 - doe / 146096) / 365
  let doy := doe - (365 * yoe + yoe / 4 - yoe / 100)
  let mp := (5 * doy + 2) / 153
  let d := doy - (153 * mp + 2) / 5 + 1
  let m := if mp < 10 then mp + 3 else mp - 9
  ⟨yoe + era * 400 + (if m ≤ 2 then 1 else 0), m, d⟩

/-- Day number of a `Date`. -/
def rataDie (dt : Date) : Nat := daysFromCivil dt.year dt.month dt.day

/-- `dt + timedelta(days = n)` of the host calendar. -/
def addDays (dt : Date) (n : Nat) : Date := civilFromDays (rataDie dt + n)

/-- `dt - timedelta(days = n)` of the host calendar. -/
def subDays (dt : Date) (n : Nat) : Date := civilFromDays (rataDie dt - n)

/-- `datetime.isoweekday`: Monday = 1 .. Sunday = 7.
0000-03-01 is a Wednesday (the Gregorian calendar repeats every 146097
days, a multiple of 7, and 2000-03-01 is a Wednesday). -/
def isoweekday (dt : Date) : Nat := (rataDie dt + 2) % 7 + 1

/-- Translation of `get_easter_sunday(year)`: the anonymous Gregorian
Easter algorithm.  `raise ValueError` for `year < 1583` is modelled as
`none`.  For `year ≥ 1583` every Python intermediate value is a
nonnegative integer and every subtrahend is no larger than what it is
subtracted from, so `Nat` arithmetic (with truncated subtraction and
floor division) agrees with Python's `int` arithmetic, including the
`int(x / n)` truncations. -/
def get_easter_sunday (year : Nat) : Option Date :=
  if year < 1583 then none
  else
    let a := year % 19
    let b := year / 100
    let c := year % 100
    let d := b / 4
    let e := b % 4
    let f := (b + 8) / 25
    let g := (b - f + 1) / 3
    let h := (19 * a + b - d - g + 15) % 30
    let i := c / 4
    let k := c % 4
    let l := (32 + 2 * e + 2 * i - h - k) % 7
    let m := (a + 11 * h + 22 * l) / 451
    let month := (h + l - 7 * m + 114) / 31
    let day := (h + l - 7 * m + 114) % 31 + 1
    some ⟨year, month, day⟩

/-- Rule `__january_1st`. -/
def january_1st (dt : Date) : Option Bool :=
  some (dt.month == 1 && dt.day == 1)

/-- Rule `__holy_thursday`: `dt.date() == (easter - 3 days).date()`. -/
def holy_thursday (dt : Date) : Option Bool :=
  (get_easter_sunday dt.year).map (fun e => dt == subDays e 3)

/-- Rule `__good_friday`: `dt.date() == (easter - 2 days).date()`. -/
def good_friday (dt : Date) : Option Bool :=
  (get_easter_sunday dt.year).map (fun e => dt == subDays e 2)

/-- Rule `__easter_sunday`: `easter.date() == dt.date()`. -/
def easter_sunday_rule (dt : Date) : Option Bool :=
  (get_easter_sunday dt.year).map (fun e => e == dt)

/-- Rule `__easter_monday`: `easter.date() + 1 day == dt.date()`. -/
def easter_monday (dt : Date) : Option Bool :=
  (get_easter_sunday dt.year).map (fun e => addDays e 1 == dt)

/-- The `while True` loops of `__first_day_of_summer` and
`__merchant_holiday`, stepping one day at a time until the ISO weekday
equals `target`; modelled with explicit fuel (`none` = the loop did not
stop within the given number of steps, which is proved never to happen
with fuel 7). -/
def searchWeekday (target : Nat) : Nat → Date → Option Date
  | 0, _ => none
  | n + 1, d => if isoweekday d = target then some d else searchWeekday target n (addDays d 1)

/-- Rule `__first_day_of_summer`: April dates equal to the first Thursday
on or after April 19. -/
def first_day_of_summer (dt : Date) : Option Bool :=
  if dt.month ≠ 4 then some false
  else (searchWeekday 4 7 ⟨dt.year, 4, 19⟩).map (fun d => dt == d)

/-- Rule `__may_1st`. -/
def may_1st (dt : Date) : Option Bool :=
  some (dt.month == 5 && dt.day == 1)

/-- Rule `__ascension_of_jesus`: `dt.date() == (easter + 39 days).date()`. -/
def ascension_of_jesus (dt : Date) : Option Bool :=
  (get_easter_sunday dt.year).map (fun e => dt == addDays e 39)

/-- Rule `__pentecost`: `dt.date() == (easter + 49 days).date()`. -/
def pentecost (dt : Date) : Option Bool :=
  (get_easter_sunday dt.year).map (fun e => dt == addDays e 49)

/-- Rule `__whit_monday`: `dt.date() == (easter + 50 days).date()`. -/
def whit_monday (dt : Date) : Option Bool :=
  (get_easter_sunday dt.year).map (fun e => dt == addDays e 50)

/-- Rule `__june_17th`. -/
def june_17th (dt : Date) : Option Bool :=
  some (dt.month == 6 && dt.day == 17)

/-- Rule `__merchant_holiday`: August dates equal to the first Monday of
August. -/
def merchant_holiday (dt : Date) : Option Bool :=
  if dt.month ≠ 8 then some false
  else (searchWeekday 1 7 ⟨dt.year, 8, 1⟩).map (fun d => dt == d)

/-- Rule `__christmas_eve`. -/
def christmas_eve (dt : Date) : Option Bool :=
  some (dt.month == 12 && dt.day == 24)

/-- Rule `__christmast_day` (name as in the source). -/
def christmast_day (dt : Date) : Option Bool :=
  some (dt.month == 12 && dt.day == 25)

/-- Rule `__second_day_of_christmas`. -/
def second_day_of_christmas (dt : Date) : Option Bool :=
  some (dt.month == 12 && dt.day == 26)

/-- The boolean test of `__new_years_eve`. -/
def new_years_eve_b (dt : Date) : Bool :=
  dt.month == 12 && dt.day == 31

/-- Rule `__new_years_eve`. -/
def new_years_eve (dt : Date) : Option Bool :=
  some (new_years_eve_b dt)

/-- `__holiday_funs`: the registry of the sixteen rules, in registration
(decoration) order. -/
def holidayFuns : List (Date → Option Bool) :=
  [january_1st, holy_thursday, good_friday, easter_sunday_rule, easter_monday,
   first_day_of_summer, may_1st, ascension_of_jesus, pentecost, whit_monday,
   june_17th, merchant_holiday, christmas_eve, christmast_day,
   second_day_of_christmas, new_years_eve]

/-- The `for fun in __holiday_funs` loop of `is_holiday`: first rule that
returns true short-circuits; a raised error (`none`) propagates. -/
def foldHoliday (dt : Date) : List (Date → Option Bool) → Option Bool
  | [] => some false
  | f :: rest =>
    match f dt with
    | none => none
    | some true => some true
    | some false => foldHoliday dt rest

/-- `is_holiday(dt)`. -/
def is_holiday (dt : Date) : Option Bool := foldHoliday dt holidayFuns

/-- `is_weekday(dt)`: ISO weekday in 1..5. -/
def is_weekday (dt : Date) : Bool :=
  decide (1 ≤ isoweekday dt ∧ isoweekday dt ≤ 5)

/-- `is_businessday(dt) = is_weekday(dt) and not is_holiday(dt)`;
Python's `and` short-circuits, so on a non-weekday `is_holiday` (and any
error it would raise) is never evaluated. -/
def is_businessday (dt : Date) : Option Bool :=
  if is_weekday dt then (is_holiday dt).map (fun h => !h) else some false

/-- `is_bankday(dt) = is_businessday(dt) or (__new_years_eve(dt) and is_weekday(dt))`;
Python's `or` short-circuits after a true `is_businessday`. -/
def is_bankday (dt : Date) : Option Bool :=
  match is_businessday dt with
  | none => none
  | some true => some true
  | some false => some (new_years_eve_b dt && is_weekday dt)

/-- Decidable check that the fuel-7 weekday search starting at day `d0` of
month `mo` of year `r` stops at the unique day with weekday `tg` among the
seven candidates `d0 .. d0+6`. -/
def searchBaseOK (tg mo d0 r : Nat) : Bool :=
  match searchWeekday tg 7 ⟨r, mo, d0⟩ with
  | none => false
  | some e =>
    e.year == r && e.month == mo && decide (d0 ≤ e.day) && decide (e.day ≤ d0 + 6) &&
    (isoweekday e == tg) &&
    ((List.range 7).all fun j => ((isoweekday ⟨r, mo, d0 + j⟩ == tg) == (d0 + j == e.day)))

/-! ## Calendar arithmetic lemmas -/

/-- For months from March on, the day number splits into whole 400-year
eras plus the day number within the era of the residual year. -/
theorem daysFromCivil_decompose (y m d : Nat) (hm : 3 ≤ m) :
    daysFromCivil y m d = (y / 400) * 146097 + daysFromCivil (y % 400) m d := by
  simp only [daysFromCivil]
  split_ifs <;> omega

/-- Adding whole 400-year eras to a day number shifts the year of the
corresponding civil date by a multiple of 400. -/
theorem civilFromDays_decompose (q t : Nat) (ht : t < 146097) :
    civilFromDays (q * 146097 + t) =
      ⟨(civilFromDays t).year + 400 * q, (civilFromDays t).month, (civilFromDays t).day⟩ := by
  have h1 : (q * 146097 + t) / 146097 = q := by omega
  have h2 : (q * 146097 + t) % 146097 = t := by omega
  have h3 : t / 146097 = 0 := by omega
  have h4 : t % 146097 = t := by omega
  simp only [civilFromDays, h1, h2, h3, h4, Date.mk.injEq, and_true, true_and]
  split_ifs <;> omega

/-- Day numbers of dates within the first 400-year era stay within it
even after one further day. -/
theorem daysFromCivil_lt (r m d : Nat) (hr : r < 400) (hm : m ≤ 12) (hd : d ≤ 31) :
    daysFromCivil r m d + 1 < 146097 := by
  simp only [daysFromCivil]
  split_ifs <;> omega

/-- The ISO weekday of a date with month ≥ 3 only depends on the year
modulo 400 (146097 is a multiple of 7). -/
theorem isoweekday_mod400 (y m d : Nat) (hm : 3 ≤ m) :
    isoweekday ⟨y, m, d⟩ = isoweekday ⟨y % 400, m, d⟩ := by
  have h1 := daysFromCivil_decompose y m d hm
  simp only [isoweekday, rataDie]
  omega

/-! ## Easter lemmas -/

set_option maxRecDepth 40000 in
/-- The weekday congruence behind the Easter algorithm, as a function of
the year modulo 400 alone (the term `h` of the algorithm cancels). -/
theorem easterWeekdayBase : ∀ r < 400,
    (r * 365 + r / 4 + 53 + 2 * (r / 100) + 2 * (r % 100 / 4)) % 7 =
      (4 + r % 100 % 4 + r / 100) % 7 := by decide

set_option maxRecDepth 10000 in
/-- For every year from 1583 on, `get_easter_sunday` succeeds, and the
returned date carries that year. -/
theorem easter_some (y : Nat) (hy : 1583 ≤ y) :
    ∃ mo da, get_easter_sunday y = some ⟨y, mo, da⟩ := by
  unfold get_easter_sunday
  rw [if_neg (show ¬ y < 1583 by omega)]
  exact ⟨_, _, rfl⟩

set_option maxRecDepth 10000 in
/-- The Easter date always lies between March 22 and April 25. -/
theorem easter_bounds (y mo da : Nat) (hy : 1583 ≤ y)
    (he : get_easter_sunday y = some ⟨y, mo, da⟩) :
    (mo = 3 ∧ 22 ≤ da ∧ da ≤ 31) ∨ (mo = 4 ∧ 1 ≤ da ∧ da ≤ 25) := by
  simp only [get_easter_sunday, if_neg (show ¬ y < 1583 by omega),
    Option.some.injEq, Date.mk.injEq, true_and] at he
  omega

set_option maxRecDepth 10000 in
set_option maxHeartbeats 2000000 in
/-- The Easter date always falls on a Sunday (ISO weekday 7). -/
theorem easter_isoweekday (y mo da : Nat) (hy : 1583 ≤ y)
    (he : get_easter_sunday y = some ⟨y, mo, da⟩) :
    isoweekday ⟨y, mo, da⟩ = 7 := by
  simp only [get_easter_sunday, if_neg (show ¬ y < 1583 by omega),
    Option.some.injEq, Date.mk.injEq, true_and] at he
  obtain ⟨hmo, hda⟩ := he
  have ha : y / 100 % 4 = y % 400 / 100 := by omega
  have hb : y % 100 = y % 400 % 100 := by omega
  have base := easterWeekdayBase (y % 400) (Nat.mod_lt _ (by omega))
  rw [← ha, ← hb] at base
  generalize hH : (19 * (y % 19) + y / 100 - y / 100 / 4 -
      (y / 100 - (y / 100 + 8) / 25 + 1) / 3 + 15) % 30 = H at hmo hda
  have hHlt : H < 30 := by omega
  have h34 : mo = 3 ∨ mo = 4 := by omega
  rcases h34 with h | h <;> subst h
  · simp only [isoweekday, rataDie, daysFromCivil]
    split_ifs <;> omega
  · simp only [isoweekday, rataDie, daysFromCivil]
    split_ifs <;> omega

/-- For every year from 1583 on, `get_easter_sunday` returns a date of
that year in March 22 .. April 25 that falls on a Sunday. -/
theorem easter_spec (y : Nat) (hy : 1583 ≤ y) :
    ∃ mo da, get_easter_sunday y = some ⟨y, mo, da⟩ ∧
      ((mo = 3 ∧ 22 ≤ da ∧ da ≤ 31) ∨ (mo = 4 ∧ 1 ≤ da ∧ da ≤ 25)) ∧
      isoweekday ⟨y, mo, da⟩ = 7 := by
  obtain ⟨mo, da, he⟩ := easter_some y hy
  exact ⟨mo, da, he, easter_bounds y mo da hy he, easter_isoweekday y mo da hy he⟩

/-! ## The weekday search loops -/

set_option maxRecDepth 100000 in
/-- One-day stepping inside April of a year within the first era. -/
theorem aprilStepBase : ∀ r < 400, ∀ j < 6,
    civilFromDays (daysFromCivil r 4 (19 + j) + 1) = ⟨r, 4, 20 + j⟩ := by decide

set_option maxRecDepth 100000 in
/-- One-day stepping inside August of a year within the first era. -/
theorem augustStepBase : ∀ r < 400, ∀ j < 6,
    civilFromDays (daysFromCivil r 8 (1 + j) + 1) = ⟨r, 8, 2 + j⟩ := by decide

/-- `addDays` moves April 19–24 of any year to the next April day. -/
theorem addDays_april (y d : Nat) (hd1 : 19 ≤ d) (hd2 : d ≤ 24) :
    addDays ⟨y, 4, d⟩ 1 = ⟨y, 4, d + 1⟩ := by
  have hr : y % 400 < 400 := Nat.mod_lt _ (by omega)
  have h1 := daysFromCivil_decompose y 4 d (by omega)
  have h2 := daysFromCivil_lt (y % 400) 4 d hr (by omega) (by omega)
  have hb := aprilStepBase (y % 400) hr (d - 19) (by omega)
  rw [show 19 + (d - 19) = d from by omega, show 20 + (d - 19) = d + 1 from by omega] at hb
  have e1 : rataDie ⟨y, 4, d⟩ + 1 =
      (y / 400) * 146097 + (daysFromCivil (y % 400) 4 d + 1) := by
    simp only [rataDie]; omega
  rw [addDays, e1, civilFromDays_decompose (y / 400) _ h2, hb, Date.mk.injEq]
  refine ⟨?_, rfl, rfl⟩
  show y % 400 + 400 * (y / 400) = y
  omega

/-- `addDays` moves August 1–6 of any year to the next August day. -/
theorem addDays_august (y d : Nat) (hd1 : 1 ≤ d) (hd2 : d ≤ 6) :
    addDays ⟨y, 8, d⟩ 1 = ⟨y, 8, d + 1⟩ := by
  have hr : y % 400 < 400 := Nat.mod_lt _ (by omega)
  have h1 := daysFromCivil_decompose y 8 d (by omega)
  have h2 := daysFromCivil_lt (y % 400) 8 d hr (by omega) (by omega)
  have hb := augustStepBase (y % 400) hr (d - 1) (by omega)
  rw [show 1 + (d - 1) = d from by omega, show 2 + (d - 1) = d + 1 from by omega] at hb
  have e1 : rataDie ⟨y, 8, d⟩ + 1 =
      (y / 400) * 146097 + (daysFromCivil (y % 400) 8 d + 1) := by
    simp only [rataDie]; omega
  rw [addDays, e1, civilFromDays_decompose (y / 400) _ h2, hb, Date.mk.injEq]
  refine ⟨?_, rfl, rfl⟩
  show y % 400 + 400 * (y / 400) = y
  omega

set_option maxRecDepth 100000 in
/-- The April search check holds for every year of the first era. -/
theorem aprilBaseOK : ∀ r < 400, searchBaseOK 4 4 19 r = true := by decide

set_option maxRecDepth 100000 in
/-- The August search check holds for every year of the first era. -/
theorem augustBaseOK : ∀ r < 400, searchBaseOK 1 8 1 r = true := by decide

/-- Unpack `searchBaseOK` into the properties of the found date. -/
theorem searchBaseOK_spec (tg mo d0 r : Nat) (h : searchBaseOK tg mo d0 r = true) :
    ∃ e, searchWeekday tg 7 ⟨r, mo, d0⟩ = some e ∧ e.year = r ∧ e.month = mo ∧
      d0 ≤ e.day ∧ e.day ≤ d0 + 6 ∧ isoweekday e = tg ∧
      ∀ j < 7, (isoweekday ⟨r, mo, d0 + j⟩ = tg ↔ d0 + j = e.day) := by
  unfold searchBaseOK at h
  split at h
  · exact absurd h (by simp)
  · rename_i e heq
    simp only [Bool.and_eq_true, beq_iff_eq, decide_eq_true_eq, List.all_eq_true,
      List.mem_range] at h
    obtain ⟨⟨⟨⟨⟨hyr, hmo⟩, hd1⟩, hd2⟩, hw⟩, huniq⟩ := h
    refine ⟨e, heq, hyr, hmo, hd1, hd2, hw, ?_⟩
    intro j hj
    have hu := huniq j hj
    constructor
    · intro hwj
      have h1 : (isoweekday ⟨r, mo, d0 + j⟩ == tg) = true := by simp [hwj]
      rw [h1] at hu
      have h2 : (d0 + j == e.day) = true := hu.symm
      simpa using h2
    · intro hdj
      have h1 : (d0 + j == e.day) = true := by simp [hdj]
      rw [h1] at hu
      simpa using hu

/-- The weekday search of year `y` mirrors the search of year `y % 400`,
up to restoring the year, as long as stepping stays inside the month. -/
theorem searchWeekday_transfer (y mo tg lo hi : Nat) (hm : 3 ≤ mo)
    (hstep : ∀ e, lo ≤ e → e ≤ hi →
      addDays ⟨y, mo, e⟩ 1 = ⟨y, mo, e + 1⟩ ∧
      addDays ⟨y % 400, mo, e⟩ 1 = ⟨y % 400, mo, e + 1⟩) :
    ∀ j d, lo ≤ d → d + j ≤ hi + 2 →
      searchWeekday tg j ⟨y, mo, d⟩ =
        (searchWeekday tg j ⟨y % 400, mo, d⟩).map (fun e => ⟨y, e.month, e.day⟩) := by
  intro j
  induction j with
  | zero => intro d _ _; rfl
  | succ n ih =>
    intro d hlo hhi
    have hw := isoweekday_mod400 y mo d hm
    by_cases hcond : isoweekday ⟨y, mo, d⟩ = tg
    · rw [searchWeekday, if_pos hcond, searchWeekday, if_pos (by rw [← hw]; exact hcond)]
      rfl
    · rw [searchWeekday, if_neg hcond, searchWeekday, if_neg (by rw [← hw]; exact hcond)]
      match n with
      | 0 => rfl
      | Nat.succ n2 =>
        have hst := hstep d hlo (by omega)
        rw [hst.1, hst.2]
        exact ih (d + 1) (by omega) (by omega)

/-- For every year, the April search (fuel 7, from April 19) terminates at
the unique Thursday among April 19–25 of that year. -/
theorem april_search_spec (y : Nat) :
    ∃ e, searchWeekday 4 7 ⟨y, 4, 19⟩ = some e ∧ e.year = y ∧ e.month = 4 ∧
      19 ≤ e.day ∧ e.day ≤ 25 ∧ isoweekday e = 4 ∧
      ∀ j < 7, (isoweekday ⟨y, 4, 19 + j⟩ = 4 ↔ 19 + j = e.day) := by
  have hr : y % 400 < 400 := Nat.mod_lt _ (by omega)
  obtain ⟨e0, hs0, hy0, hm0, hd1, hd2, hw0, huniq⟩ :=
    searchBaseOK_spec 4 4 19 (y % 400) (aprilBaseOK (y % 400) hr)
  have tr := searchWeekday_transfer y 4 4 19 24 (by omega)
    (fun e he1 he2 => ⟨addDays_april y e he1 he2, addDays_april (y % 400) e he1 he2⟩)
    7 19 (le_refl _) (by omega)
  have hee : (⟨e0.year, e0.month, e0.day⟩ : Date) = e0 := rfl
  rw [hy0] at hee
  refine ⟨⟨y, e0.month, e0.day⟩, ?_, rfl, hm0, ?_, ?_, ?_, ?_⟩
  · rw [tr, hs0]; rfl
  · show 19 ≤ e0.day
    omega
  · show e0.day ≤ 25
    omega
  · have hper := isoweekday_mod400 y e0.month e0.day (by omega)
    rw [show isoweekday (⟨y, e0.month, e0.day⟩ : Date) = isoweekday e0 from by
      rw [hper, hee]]
    exact hw0
  · intro j hj
    have hper := isoweekday_mod400 y 4 (19 + j) (by omega)
    rw [hper]
    exact huniq j hj

/-- For every year, the August search (fuel 7, from August 1) terminates
at the unique Monday among August 1–7 of that year. -/
theorem august_search_spec (y : Nat) :
    ∃ e, searchWeekday 1 7 ⟨y, 8, 1⟩ = some e ∧ e.year = y ∧ e.month = 8 ∧
      1 ≤ e.day ∧ e.day ≤ 7 ∧ isoweekday e = 1 ∧
      ∀ j < 7, (isoweekday ⟨y, 8, 1 + j⟩ = 1 ↔ 1 + j = e.day) := by
  have hr : y % 400 < 400 := Nat.mod_lt _ (by omega)
  obtain ⟨e0, hs0, hy0, hm0, hd1, hd2, hw0, huniq⟩ :=
    searchBaseOK_spec 1 8 1 (y % 400) (augustBaseOK (y % 400) hr)
  have tr := searchWeekday_transfer y 8 1 1 6 (by omega)
    (fun e he1 he2 => ⟨addDays_august y e he1 he2, addDays_august (y % 400) e he1 he2⟩)
    7 1 (le_refl _) (by omega)
  have hee : (⟨e0.year, e0.month, e0.day⟩ : Date) = e0 := rfl
  rw [hy0] at hee
  refine ⟨⟨y, e0.month, e0.day⟩, ?_, rfl, hm0, ?_, ?_, ?_, ?_⟩
  · rw [tr, hs0]; rfl
  · show 1 ≤ e0.day
    omega
  · show e0.day ≤ 7
    omega
  · have hper := isoweekday_mod400 y e0.month e0.day (by omega)
    rw [show isoweekday (⟨y, e0.month, e0.day⟩ : Date) = isoweekday e0 from by
      rw [hper, hee]]
    exact hw0
  · intro j hj
    have hper := isoweekday_mod400 y 8 (1 + j) (by omega)
    rw [hper]
    exact huniq j hj

/-! ## Totality and evaluation of the classification functions -/

/-- The two search-based rules never raise: the fuel-7 search always
finds the wanted weekday. -/
theorem first_day_of_summer_total (dt : Date) : ∃ b, first_day_of_summer dt = some b := by
  unfold first_day_of_summer
  split
  · exact ⟨false, rfl⟩
  · obtain ⟨e, hs, -, -, -, -, -, -⟩ := april_search_spec dt.year
    rw [hs]
    exact ⟨_, rfl⟩

/-- The August search rule never raises. -/
theorem merchant_holiday_total (dt : Date) : ∃ b, merchant_holiday dt = some b := by
  unfold merchant_holiday
  split
  · exact ⟨false, rfl⟩
  · obtain ⟨e, hs, -, -, -, -, -, -⟩ := august_search_spec dt.year
    rw [hs]
    exact ⟨_, rfl⟩

/-- For years ≥ 1583 every registered rule returns a boolean. -/
theorem rules_total (dt : Date) (hy : 1583 ≤ dt.year) :
    ∀ f ∈ holidayFuns, ∃ b, f dt = some b := by
  obtain ⟨mo, da, he⟩ := easter_some dt.year hy
  intro f hf
  fin_cases hf
  · exact ⟨_, rfl⟩
  · unfold holy_thursday; rw [he]; exact ⟨_, rfl⟩
  · unfold good_friday; rw [he]; exact ⟨_, rfl⟩
  · unfold easter_sunday_rule; rw [he]; exact ⟨_, rfl⟩
  · unfold easter_monday; rw [he]; exact ⟨_, rfl⟩
  · exact first_day_of_summer_total dt
  · exact ⟨_, rfl⟩
  · unfold ascension_of_jesus; rw [he]; exact ⟨_, rfl⟩
  · unfold pentecost; rw [he]; exact ⟨_, rfl⟩
  · unfold whit_monday; rw [he]; exact ⟨_, rfl⟩
  · exact ⟨_, rfl⟩
  · exact merchant_holiday_total dt
  · exact ⟨_, rfl⟩
  · exact ⟨_, rfl⟩
  · exact ⟨_, rfl⟩
  · exact ⟨_, rfl⟩

/-- If every rule of the list answers, the fold answers. -/
theorem foldHoliday_total (dt : Date) (l : List (Date → Option Bool))
    (hl : ∀ f ∈ l, ∃ b, f dt = some b) : ∃ b, foldHoliday dt l = some b := by
  induction l with
  | nil => exact ⟨false, rfl⟩
  | cons f rest ih =>
    obtain ⟨b, hb⟩ := hl f (List.mem_cons_self f rest)
    have ih' := ih fun g hg => hl g (List.mem_cons_of_mem f hg)
    cases b
    · obtain ⟨c, hc⟩ := ih'
      refine ⟨c, ?_⟩
      simp only [foldHoliday, hb]
      exact hc
    · exact ⟨true, by simp only [foldHoliday, hb]⟩

/-- If every rule of the list answers, the fold answers true exactly when
some rule answers true (the OR semantics of `is_holiday`). -/
theorem foldHoliday_iff (dt : Date) (l : List (Date → Option Bool))
    (hl : ∀ f ∈ l, ∃ b, f dt = some b) :
    (foldHoliday dt l = some true ↔ ∃ f ∈ l, f dt = some true) := by
  induction l with
  | nil => simp [foldHoliday]
  | cons f rest ih =>
    obtain ⟨b, hb⟩ := hl f (List.mem_cons_self f rest)
    have ih' := ih fun g hg => hl g (List.mem_cons_of_mem f hg)
    cases b
    · simp only [foldHoliday, hb]
      rw [ih']
      constructor
      · rintro ⟨g, hg, hgt⟩
        exact ⟨g, List.mem_cons_of_mem f hg, hgt⟩
      · rintro ⟨g, hg, hgt⟩
        rcases List.mem_cons.mp hg with h | h
        · subst h
          rw [hb] at hgt
          cases hgt
        · exact ⟨g, h, hgt⟩
    · simp only [foldHoliday, hb]
      constructor
      · intro _
        exact ⟨f, List.mem_cons_self f rest, hb⟩
      · intro _
        trivial

/-- For years ≥ 1583, `is_holiday` never raises. -/
theorem is_holiday_total (dt : Date) (hy : 1583 ≤ dt.year) :
    ∃ b, is_holiday dt = some b :=
  foldHoliday_total dt holidayFuns (rules_total dt hy)

/-- For years ≥ 1583, `is_holiday` is the OR of the sixteen rules. -/
theorem is_holiday_iff (dt : Date) (hy : 1583 ≤ dt.year) :
    (is_holiday dt = some true ↔ ∃ f ∈ holidayFuns, f dt = some true) :=
  foldHoliday_iff dt holidayFuns (rules_total dt hy)

/-- January 1 short-circuits `is_holiday` to true in every year: the New
Year rule is first in the registry. -/
theorem is_holiday_jan1 (dt : Date) (h1 : dt.month = 1) (h2 : dt.day = 1) :
    is_holiday dt = some true := by
  have hj : january_1st dt = some true := by
    unfold january_1st
    rw [h1, h2]
    rfl
  show foldHoliday dt holidayFuns = some true
  unfold holidayFuns
  simp only [foldHoliday, hj]

/-- For a pre-1583 year and a date other than January 1, `is_holiday`
raises: the Holy Thursday rule (second in the registry) queries Easter. -/
theorem is_holiday_none (dt : Date) (hy : dt.year < 1583)
    (hnj : ¬ (dt.month = 1 ∧ dt.day = 1)) : is_holiday dt = none := by
  have hj : january_1st dt = some false := by
    unfold january_1st
    cases hb : (dt.month == 1 && dt.day == 1) with
    | false => rfl
    | true =>
      rw [Bool.and_eq_true, beq_iff_eq, beq_iff_eq] at hb
      exact absurd hb hnj
  have ht : holy_thursday dt = none := by
    unfold holy_thursday
    rw [show get_easter_sunday dt.year = none from by
      unfold get_easter_sunday; rw [if_pos hy]]
    rfl
  show foldHoliday dt holidayFuns = none
  unfold holidayFuns
  simp only [foldHoliday, hj, ht]

/-- `is_businessday` in terms of `is_weekday` and the holiday answer. -/
theorem is_businessday_eq (dt : Date) (h : Bool) (hh : is_holiday dt = some h) :
    is_businessday dt = some (is_weekday dt && !h) := by
  unfold is_businessday
  split
  · rename_i hw
    rw [hh, hw]
    rfl
  · rename_i hw
    rw [Bool.not_eq_true] at hw
    rw [hw]
    rfl

/-- `is_bankday` in terms of the business-day answer. -/
theorem is_bankday_eq (dt : Date) (b : Bool) (hb : is_businessday dt = some b) :
    is_bankday dt = some (b || (new_years_eve_b dt && is_weekday dt)) := by
  unfold is_bankday
  rw [hb]
  cases b
  · rfl
  · rfl

/-- A raising `is_holiday` propagates through `is_businessday` on
weekdays (Python's `and` evaluates `is_holiday` there). -/
theorem is_businessday_none (dt : Date) (hw : is_weekday dt = true)
    (hh : is_holiday dt = none) : is_businessday dt = none := by
  unfold is_businessday
  rw [if_pos hw, hh]
  rfl

/-- A raising `is_businessday` propagates through `is_bankday`. -/
theorem is_bankday_none (dt : Date) (hb : is_businessday dt = none) :
    is_bankday dt = none := by
  unfold is_bankday
  rw [hb]

/-! ## Claims -/

set_option maxRecDepth 10000 in
/-- C1: for every year y ≥ 1583, `get_easter_sunday(y)` returns exactly
one date, that date is a Sunday, and it lies between March 22 and
April 25 inclusive; for every year in [1800, 2200] exactly one date of
the year satisfies the Easter-Sunday rule; and the spot values for 1736,
2008 and 2292 hold. -/
theorem c1_easter_properties :
    (∀ y, 1583 ≤ y → ∃ mo da, get_easter_sunday y = some ⟨y, mo, da⟩ ∧
        isoweekday ⟨y, mo, da⟩ = 7 ∧
        ((mo = 3 ∧ 22 ≤ da ∧ da ≤ 31) ∨ (mo = 4 ∧ 1 ≤ da ∧ da ≤ 25))) ∧
    (∀ y, 1800 ≤ y → y ≤ 2200 →
        ∃! dt : Date, dt.year = y ∧ easter_sunday_rule dt = some true) ∧
    get_easter_sunday 1736 = some ⟨1736, 4, 1⟩ ∧
    get_easter_sunday 2008 = some ⟨2008, 3, 23⟩ ∧
    get_easter_sunday 2292 = some ⟨2292, 4, 10⟩ := by
  refine ⟨?_, ?_, by decide, by decide, by decide⟩
  · intro y hy
    obtain ⟨mo, da, he, hb, hw⟩ := easter_spec y hy
    exact ⟨mo, da, he, hw, hb⟩
  · intro y hy1 hy2
    have hy : 1583 ≤ y := by omega
    obtain ⟨mo, da, he, hb, hw⟩ := easter_spec y hy
    refine ⟨⟨y, mo, da⟩, ⟨rfl, ?_⟩, ?_⟩
    · show (get_easter_sunday y).map (fun e => e == (⟨y, mo, da⟩ : Date)) = some true
      rw [he]
      simp
    · rintro dt ⟨hdy, hrule⟩
      unfold easter_sunday_rule at hrule
      rw [hdy, he] at hrule
      simp only [Option.map_some', Option.some.injEq, beq_iff_eq] at hrule
      exact hrule.symm

/-- Witness for C1 at concrete years. -/
theorem c1_easter_properties_witness :
    (∃ mo da, get_easter_sunday 2013 = some ⟨2013, mo, da⟩ ∧
        isoweekday ⟨2013, mo, da⟩ = 7 ∧
        ((mo = 3 ∧ 22 ≤ da ∧ da ≤ 31) ∨ (mo = 4 ∧ 1 ≤ da ∧ da ≤ 25))) ∧
    (∃! dt : Date, dt.year = 1900 ∧ easter_sunday_rule dt = some true) :=
  ⟨c1_easter_properties.1 2013 (by decide),
   c1_easter_properties.2.1 1900 (by decide) (by decide)⟩

set_option maxRecDepth 10000 in
/-- C2: `get_easter_sunday(1583)` succeeds; every year below 1583 fails
with the domain error (`none`), never a clamped date; and the error
propagates unchanged through `is_holiday`, `is_businessday` and
`is_bankday` whenever those functions actually reach the Easter
computation (any date other than January 1; for the two classification
functions, additionally a weekday, since Python's `and` short-circuits
`is_holiday` away on weekends). -/
theorem c2_domain_error :
    (∃ e, get_easter_sunday 1583 = some e) ∧
    (∀ y, y < 1583 → get_easter_sunday y = none) ∧
    (∀ dt : Date, dt.year < 1583 → ¬ (dt.month = 1 ∧ dt.day = 1) →
      is_holiday dt = none ∧
      (is_weekday dt = true → is_businessday dt = none ∧ is_bankday dt = none)) := by
  refine ⟨⟨⟨1583, 4, 10⟩, by decide⟩, ?_, ?_⟩
  · intro y hy
    unfold get_easter_sunday
    rw [if_pos hy]
  · intro dt hy hnj
    have hh := is_holiday_none dt hy hnj
    refine ⟨hh, fun hw => ?_⟩
    have hb := is_businessday_none dt hw hh
    exact ⟨hb, is_bankday_none dt hb⟩

/-- Witness for C2 at year 1582 and a pre-1583 weekday date. -/
theorem c2_domain_error_witness :
    get_easter_sunday 1582 = none ∧
    (is_holiday ⟨1582, 12, 24⟩ = none ∧
      (is_weekday ⟨1582, 12, 24⟩ = true →
        is_businessday ⟨1582, 12, 24⟩ = none ∧ is_bankday ⟨1582, 12, 24⟩ = none)) :=
  ⟨c2_domain_error.2.1 1582 (by decide),
   c2_domain_error.2.2 ⟨1582, 12, 24⟩ (by decide) (by decide)⟩

set_option maxRecDepth 10000 in
/-- C3: for every date with year ≥ 1583,
`is_bankday = is_businessday OR (December 31 AND weekday)`; in
particular `is_bankday(2013-12-31) = true` while
`is_holiday(2013-12-31) = true`, 2013-12-31 being a Tuesday. -/
theorem c3_bankday_carveout :
    (∀ dt : Date, ValidDate dt → 1583 ≤ dt.year →
      ∃ b, is_businessday dt = some b ∧
        is_bankday dt = some (b || (new_years_eve_b dt && is_weekday dt))) ∧
    is_bankday ⟨2013, 12, 31⟩ = some true ∧
    is_holiday ⟨2013, 12, 31⟩ = some true ∧
    isoweekday ⟨2013, 12, 31⟩ = 2 := by
  refine ⟨?_, by decide, by decide, by decide⟩
  intro dt hv hy
  obtain ⟨h, hh⟩ := is_holiday_total dt hy
  have hb := is_businessday_eq dt h hh
  exact ⟨_, hb, is_bankday_eq dt _ hb⟩

/-- Witness for C3 at a concrete date. -/
theorem c3_bankday_carveout_witness :
    ∃ b, is_businessday ⟨2013, 12, 24⟩ = some b ∧
      is_bankday ⟨2013, 12, 24⟩ =
        some (b || (new_years_eve_b ⟨2013, 12, 24⟩ && is_weekday ⟨2013, 12, 24⟩)) :=
  c3_bankday_carveout.1 ⟨2013, 12, 24⟩ (by decide) (by decide)

/-- C4: for every date with year ≥ 1583,
`is_businessday = is_weekday AND NOT is_holiday`; holiday and business
day are mutually exclusive, and complementary on weekdays. -/
theorem c4_businessday_def :
    ∀ dt : Date, ValidDate dt → 1583 ≤ dt.year →
      ∃ h b, is_holiday dt = some h ∧ is_businessday dt = some b ∧
        b = (is_weekday dt && !h) ∧
        ¬ (h = true ∧ b = true) ∧
        (is_weekday dt = true → b = !h) := by
  intro dt hv hy
  obtain ⟨h, hh⟩ := is_holiday_total dt hy
  refine ⟨h, _, hh, is_businessday_eq dt h hh, rfl, ?_, ?_⟩
  · rintro ⟨h1, h2⟩
    subst h1
    simp at h2
  · intro hw
    rw [hw]
    rfl

/-- Witness for C4 at a concrete date. -/
theorem c4_businessday_def_witness :
    ∃ h b, is_holiday ⟨2013, 1, 8⟩ = some h ∧ is_businessday ⟨2013, 1, 8⟩ = some b ∧
      b = (is_weekday ⟨2013, 1, 8⟩ && !h) ∧
      ¬ (h = true ∧ b = true) ∧
      (is_weekday ⟨2013, 1, 8⟩ = true → b = !h) :=
  c4_businessday_def ⟨2013, 1, 8⟩ (by decide) (by decide)

set_option maxRecDepth 10000 in
/-- C5: `is_holiday` is the OR of the sixteen registered rules, and the
2013 fixed points hold (2013-08-05 is the first Monday of August 2013). -/
theorem c5_holiday_or16 :
    holidayFuns.length = 16 ∧
    (∀ dt : Date, 1583 ≤ dt.year →
      (is_holiday dt = some true ↔ ∃ f ∈ holidayFuns, f dt = some true)) ∧
    is_holiday ⟨2013, 1, 1⟩ = some true ∧
    is_holiday ⟨2013, 6, 17⟩ = some true ∧
    is_holiday ⟨2013, 8, 5⟩ = some true := by
  refine ⟨rfl, ?_, by decide, by decide, by decide⟩
  intro dt hy
  exact is_holiday_iff dt hy

/-- Witness for C5 at a concrete date. -/
theorem c5_holiday_or16_witness :
    is_holiday ⟨2013, 12, 25⟩ = some true ↔
      ∃ f ∈ holidayFuns, f ⟨2013, 12, 25⟩ = some true :=
  c5_holiday_or16.2.1 ⟨2013, 12, 25⟩ (by decide)

set_option maxRecDepth 10000 in
/-- C6 counterexample: the claim places Pentecost 2013 on 2013-05-20 and
Whit Monday 2013 on 2013-05-21, but Easter 2013 is March 31, so
Easter + 49 = May 19 and Easter + 50 = May 20: the Pentecost rule
rejects 2013-05-20, the Whit Monday rule rejects 2013-05-21, and
2013-05-21 is not a holiday at all. -/
theorem c6_counterexample :
    pentecost ⟨2013, 5, 20⟩ = some false ∧
    whit_monday ⟨2013, 5, 21⟩ = some false ∧
    is_holiday ⟨2013, 5, 21⟩ = some false ∧
    get_easter_sunday 2013 = some ⟨2013, 3, 31⟩ := by decide

set_option maxRecDepth 10000 in
/-- C6 (amended): the Easter-relative rules use offsets −3, −2, 0, +1,
+39, +49, +50 from Easter Sunday; for 2013 (Easter = 2013-03-31) the
matching dates are Holy Thursday 2013-03-28, Good Friday 2013-03-29,
Easter Sunday 2013-03-31, Easter Monday 2013-04-01, Ascension
2013-05-09, Pentecost 2013-05-19, Whit Monday 2013-05-20, each a
holiday. -/
theorem c6_easter_offsets :
    (∀ (dt e : Date), get_easter_sunday dt.year = some e →
      holy_thursday dt = some (dt == subDays e 3) ∧
      good_friday dt = some (dt == subDays e 2) ∧
      easter_sunday_rule dt = some (e == dt) ∧
      easter_monday dt = some (addDays e 1 == dt) ∧
      ascension_of_jesus dt = some (dt == addDays e 39) ∧
      pentecost dt = some (dt == addDays e 49) ∧
      whit_monday dt = some (dt == addDays e 50)) ∧
    get_easter_sunday 2013 = some ⟨2013, 3, 31⟩ ∧
    (∀ dt : Date, dt.year = 2013 →
      (holy_thursday dt = some true ↔ dt = ⟨2013, 3, 28⟩) ∧
      (good_friday dt = some true ↔ dt = ⟨2013, 3, 29⟩) ∧
      (easter_sunday_rule dt = some true ↔ dt = ⟨2013, 3, 31⟩) ∧
      (easter_monday dt = some true ↔ dt = ⟨2013, 4, 1⟩) ∧
      (ascension_of_jesus dt = some true ↔ dt = ⟨2013, 5, 9⟩) ∧
      (pentecost dt = some true ↔ dt = ⟨2013, 5, 19⟩) ∧
      (whit_monday dt = some true ↔ dt = ⟨2013, 5, 20⟩)) ∧
    is_holiday ⟨2013, 3, 28⟩ = some true ∧ is_holiday ⟨2013, 3, 29⟩ = some true ∧
    is_holiday ⟨2013, 3, 31⟩ = some true ∧ is_holiday ⟨2013, 4, 1⟩ = some true ∧
    is_holiday ⟨2013, 5, 9⟩ = some true ∧ is_holiday ⟨2013, 5, 19⟩ = some true ∧
    is_holiday ⟨2013, 5, 20⟩ = some true := by
  refine ⟨?_, by decide, ?_, by decide, by decide, by decide, by decide, by decide,
    by decide, by decide⟩
  · intro dt e he
    refine ⟨?_, ?_, ?_, ?_, ?_, ?_, ?_⟩
    · unfold holy_thursday; rw [he]; rfl
    · unfold good_friday; rw [he]; rfl
    · unfold easter_sunday_rule; rw [he]; rfl
    · unfold easter_monday; rw [he]; rfl
    · unfold ascension_of_jesus; rw [he]; rfl
    · unfold pentecost; rw [he]; rfl
    · unfold whit_monday; rw [he]; rfl
  · intro dt hdy
    have he : get_easter_sunday dt.year = some ⟨2013, 3, 31⟩ := by
      rw [hdy]
      decide
    refine ⟨?_, ?_, ?_, ?_, ?_, ?_, ?_⟩
    · unfold holy_thursday
      rw [he]
      simp only [Option.map_some', Option.some.injEq]
      rw [show subDays ⟨2013, 3, 31⟩ 3 = (⟨2013, 3, 28⟩ : Date) from by decide]
      exact beq_iff_eq
    · unfold good_friday
      rw [he]
      simp only [Option.map_some', Option.some.injEq]
      rw [show subDays ⟨2013, 3, 31⟩ 2 = (⟨2013, 3, 29⟩ : Date) from by decide]
      exact beq_iff_eq
    · unfold easter_sunday_rule
      rw [he]
      simp only [Option.map_some', Option.some.injEq]
      rw [beq_iff_eq]
      exact eq_comm
    · unfold easter_monday
      rw [he]
      simp only [Option.map_some', Option.some.injEq]
      rw [show addDays ⟨2013, 3, 31⟩ 1 = (⟨2013, 4, 1⟩ : Date) from by decide]
      rw [beq_iff_eq]
      exact eq_comm
    · unfold ascension_of_jesus
      rw [he]
      simp only [Option.map_some', Option.some.injEq]
      rw [show addDays ⟨2013, 3, 31⟩ 39 = (⟨2013, 5, 9⟩ : Date) from by decide]
      exact beq_iff_eq
    · unfold pentecost
      rw [he]
      simp only [Option.map_some', Option.some.injEq]
      rw [show addDays ⟨2013, 3, 31⟩ 49 = (⟨2013, 5, 19⟩ : Date) from by decide]
      exact beq_iff_eq
    · unfold whit_monday
      rw [he]
      simp only [Option.map_some', Option.some.injEq]
      rw [show addDays ⟨2013, 3, 31⟩ 50 = (⟨2013, 5, 20⟩ : Date) from by decide]
      exact beq_iff_eq

/-- Witness for C6 at concrete inputs. -/
theorem c6_easter_offsets_witness :
    (holy_thursday ⟨2013, 3, 28⟩ =
        some ((⟨2013, 3, 28⟩ : Date) == subDays ⟨2013, 3, 31⟩ 3)) ∧
    (pentecost ⟨2013, 5, 19⟩ = some true ↔ (⟨2013, 5, 19⟩ : Date) = ⟨2013, 5, 19⟩) :=
  ⟨((c6_easter_offsets.1 ⟨2013, 3, 28⟩ ⟨2013, 3, 31⟩ (by decide)).1),
   ((c6_easter_offsets.2.2.1 ⟨2013, 5, 19⟩ rfl).2.2.2.2.2.1)⟩

/-- C7: for every year, the linear forward searches of the First Day of
Summer rule (from April 19, seeking ISO weekday 4) and the Merchant
Holiday rule (from August 1, seeking ISO weekday 1) stop within 7 steps,
at the unique Thursday of April 19–25, resp. the unique Monday of
August 1–7, of that year. -/
theorem c7_search_termination :
    ∀ y : Nat, 1 ≤ y →
      (∃ e, searchWeekday 4 7 ⟨y, 4, 19⟩ = some e ∧ e.year = y ∧ e.month = 4 ∧
        19 ≤ e.day ∧ e.day ≤ 25 ∧ isoweekday e = 4 ∧
        ∀ j < 7, (isoweekday ⟨y, 4, 19 + j⟩ = 4 ↔ 19 + j = e.day)) ∧
      (∃ e, searchWeekday 1 7 ⟨y, 8, 1⟩ = some e ∧ e.year = y ∧ e.month = 8 ∧
        1 ≤ e.day ∧ e.day ≤ 7 ∧ isoweekday e = 1 ∧
        ∀ j < 7, (isoweekday ⟨y, 8, 1 + j⟩ = 1 ↔ 1 + j = e.day)) :=
  fun y _ => ⟨april_search_spec y, august_search_spec y⟩

/-- Witness for C7 at year 2013. -/
theorem c7_search_termination_witness :
    (∃ e, searchWeekday 4 7 ⟨2013, 4, 19⟩ = some e ∧ e.year = 2013 ∧ e.month = 4 ∧
        19 ≤ e.day ∧ e.day ≤ 25 ∧ isoweekday e = 4 ∧
        ∀ j < 7, (isoweekday ⟨2013, 4, 19 + j⟩ = 4 ↔ 19 + j = e.day)) ∧
    (∃ e, searchWeekday 1 7 ⟨2013, 8, 1⟩ = some e ∧ e.year = 2013 ∧ e.month = 8 ∧
        1 ≤ e.day ∧ e.day ≤ 7 ∧ isoweekday e = 1 ∧
        ∀ j < 7, (isoweekday ⟨2013, 8, 1 + j⟩ = 1 ↔ 1 + j = e.day)) :=
  c7_search_termination 2013 (by decide)

set_option maxRecDepth 10000 in
/-- C8 counterexample: the claim says `is_businessday(2013-02-14)` is
false because the date falls on a weekend; in fact 2013-02-14 is a
Thursday and the code returns true (the repository's own test suite
lists it among business days). -/
theorem c8_counterexample :
    is_businessday ⟨2013, 2, 14⟩ = some true ∧ isoweekday ⟨2013, 2, 14⟩ = 4 := by decide

set_option maxRecDepth 10000 in
/-- C8 (amended): `is_businessday(2013-01-08) = true`, and
`is_businessday(2013-02-14) = true` as well — 2013-02-14 is a Thursday
(an ordinary weekday, not a weekend day, and not a holiday). -/
theorem c8_businessday_examples :
    is_businessday ⟨2013, 1, 8⟩ = some true ∧
    is_businessday ⟨2013, 2, 14⟩ = some true ∧
    isoweekday ⟨2013, 2, 14⟩ = 4 ∧
    is_weekday ⟨2013, 2, 14⟩ = true ∧
    is_holiday ⟨2013, 2, 14⟩ = some false := by decide

/-- C9: a true `is_businessday` or `is_bankday` implies a weekday: no
weekend date is ever a business day or a bank day. -/
theorem c9_weekend_never_business :
    ∀ dt : Date, ValidDate dt → 1583 ≤ dt.year →
      (is_businessday dt = some true → is_weekday dt = true) ∧
      (is_bankday dt = some true → is_weekday dt = true) := by
  intro dt hv hy
  constructor
  · intro hb
    by_contra hw
    rw [Bool.not_eq_true] at hw
    have h1 : is_businessday dt = some false := by
      unfold is_businessday
      rw [if_neg (by simp [hw])]
    rw [h1] at hb
    simp at hb
  · intro hb
    by_contra hw
    rw [Bool.not_eq_true] at hw
    have h1 : is_businessday dt = some false := by
      unfold is_businessday
      rw [if_neg (by simp [hw])]
    have h2 := (is_bankday_eq dt false h1).symm.trans hb
    rw [Option.some.injEq, Bool.false_or, hw, Bool.and_false] at h2
    simp at h2

/-- Witness for C9 at a weekend date (2013-01-05, a Saturday). -/
theorem c9_weekend_never_business_witness :
    (is_businessday ⟨2013, 1, 5⟩ = some true → is_weekday ⟨2013, 1, 5⟩ = true) ∧
    (is_bankday ⟨2013, 1, 5⟩ = some true → is_weekday ⟨2013, 1, 5⟩ = true) :=
  c9_weekend_never_business ⟨2013, 1, 5⟩ (by decide) (by decide)

/-- C10: January 1 of any year — also years before 1583 — is a holiday
and `is_holiday` raises no error there: the New Year rule is evaluated
first and the OR short-circuits before any Easter-dependent rule. -/
theorem c10_jan1_no_error :
    ∀ dt : Date, dt.month = 1 → dt.day = 1 → is_holiday dt = some true :=
  fun dt h1 h2 => is_holiday_jan1 dt h1 h2

/-- Witness for C10 at January 1 of the pre-1583 year 1000. -/
theorem c10_jan1_no_error_witness : is_holiday ⟨1000, 1, 1⟩ = some true :=
  c10_jan1_no_error ⟨1000, 1, 1⟩ rfl rfl
